import Mathlib

/-!
Verification of the tinytex front end (tree-building parser and macro
resolution engine) against its natural-language specification.

The development contains three shallow embeddings, each faithful to the
slice of the source it models:

* `TB` — the token-driven Tree Builder of `src/tinytex/parser.py`
  (`TexParser.parse`), modelled as a step function over a cursor zipper.
  The cursor of the Python code always sits on the rightmost spine of the
  tree (children are only appended at the cursor, and the cursor only
  moves up or into a freshly appended node), so the mutable tree plus
  `here` pointer is represented by a stack of open frames.
* `UC` — the macro machinery of `src/tinytex/user_commands.py` over the
  node classes of `src/tinytex/nodes.py` (`UserCommand.call`,
  `XParseDocumentCommand.parse_argspecs`, `Optional.from_nodes`,
  `find_user_commands`, `resolve_user_commands`, `Node.text`).
  Python exceptions are modelled by an explicit error type; the bound
  argument values of a macro call are single-use generators in the
  source, so they are modelled by a consumable-state type threaded
  through the substitution walk.
* `HP` — an object-store model of `Node.copy` and `Node.append` from
  `src/tinytex/nodes.py`, which makes parent back-references observable.
-/

namespace TinyTeX

/-! ## TB: the Tree Builder of `parser.py` -/

/-- Lexical tokens consumed by `TexParser.parse` (`lextokens.py`).
`wordTok` covers both the `word` and `text` token types, which the
builder treats by one and the same match arm. -/
inductive TTok where
  | beginEnv (s : String)
  | endEnv (s : String)
  | cmdTok (s : String)
  | openOparam
  | closeOparam
  | openCurly
  | closeCurly
  | lineBreakTok
  | eolsTok
  | commentTok
  | whitespaceTok
  | placeholderTok (s : String)
  | wordTok (s : String)
deriving DecidableEq, Repr

/-- Tree nodes produced by the builder (the node classes local to
`parser.py`).  `beginScopeN`/`endScopeN` carry the partner reference
attribute (`end` / `begin`): `none` models the attribute being absent,
as on a freshly constructed `BeginScope()`/`EndScope()`.  The `no` field
of `Placeholder` is derived from the token text and never read by the
builder, so only the raw text is kept. -/
inductive TNode where
  | environment (nm : String) (kids : List TNode)
  | commandN (nm : String) (kids : List TNode)
  | oparamN (kids : List TNode)
  | rparamN (kids : List TNode)
  | lineBreakN
  | parBreakN
  | whitespaceN
  | beginScopeN (endRef : Option Nat)
  | endScopeN (beginRef : Option Nat)
  | textN (s : String)
  | placeholderN (s : String)
  | rootN (kids : List TNode)
deriving Repr

/-- Errors of the builder.  `parseError` is `tinymarkup`'s `ParseError`
with its message; `nameError` models the Python `NameError` raised at
`parser.py` line 431, where the f-string of the intended `ParseError`
reads the misspelled variable `tokebn`; `assertionError` models the
`assert` in `Command.append`; `rootReachedErr` models a `RootReached`
exception escaping uncaught; `internalError` marks states unreachable
from the initial state (a non-root node without a parent attribute). -/
inductive TErr where
  | parseError (msg : String)
  | nameError
  | assertionError
  | rootReachedErr
  | internalError
deriving DecidableEq, Repr

/-- The constructor data of a node that is currently open (the cursor
or one of its ancestors): everything but its final child list. -/
inductive TData where
  | rootD
  | envD (nm : String)
  | cmdD (nm : String)
  | oparamD
  | rparamD
deriving DecidableEq, Repr

/-- An open node: its data and the children appended to it so far. -/
structure TFrame where
  data : TData
  kids : List TNode
deriving Repr

/-- Builder state: the cursor frame `top` plus the stack of its open
ancestors, innermost first (the root frame is last). -/
structure TBState where
  top : TFrame
  rest : List TFrame
deriving Repr

def closeFrame (f : TFrame) : TNode :=
  match f.data with
  | .rootD => .rootN f.kids
  | .envD nm => .environment nm f.kids
  | .cmdD nm => .commandN nm f.kids
  | .oparamD => .oparamN f.kids
  | .rparamD => .rparamN f.kids

def isCmdD : TData → Bool
  | .cmdD _ => true
  | _ => false

def pushKid (st : TBState) (n : TNode) : TBState :=
  ⟨⟨st.top.data, st.top.kids ++ [n]⟩, st.rest⟩

/-- Model of `Node.append` on the cursor.  `Command.append` asserts that the
child is a parameter node; the appended leaves below never are, so
appending a leaf while the cursor is a `Command` raises
`AssertionError`. -/
def appendLeaf (st : TBState) (n : TNode) : Except TErr TBState :=
  if isCmdD st.top.data then .error .assertionError
  else .ok (pushKid st n)

/-- Model of `here = here.append(child)`: attach a new node and move the cursor
into it. -/
def descend (st : TBState) (d : TData) : TBState :=
  ⟨⟨d, []⟩, st.top :: st.rest⟩

/-- Model of `here = here.parent`: close the cursor node into its parent frame.
`none` when the cursor has no parent (which the builder never does for
the cases that use this). -/
def ascend (st : TBState) : Option TBState :=
  match st.rest with
  | [] => none
  | p :: ps => some ⟨⟨p.data, p.kids ++ [closeFrame st.top]⟩, ps⟩

/-- Model of `walk_up_to(Environment)`: chase parents until an `Environment`
(returning the zipper re-rooted there) or `Root` (`none`, modelling the
`RootReached` exception).  A non-root frame without ancestors cannot
arise from the machine; it also yields `none`. -/
def walkUpToEnv (f : TFrame) (rest : List TFrame) :
    Option (String × TFrame × List TFrame) :=
  match f.data with
  | .envD nm => some (nm, f, rest)
  | .rootD => none
  | _ =>
    match rest with
    | [] => none
    | p :: ps => walkUpToEnv ⟨p.data, p.kids ++ [closeFrame f]⟩ ps

/-- Model of `walk_up_to(Command)`, same conventions as `walkUpToEnv`. -/
def walkUpToCmd (f : TFrame) (rest : List TFrame) :
    Option (TFrame × List TFrame) :=
  match f.data with
  | .cmdD _ => some (f, rest)
  | .rootD => none
  | _ =>
    match rest with
    | [] => none
    | p :: ps => walkUpToCmd ⟨p.data, p.kids ++ [closeFrame f]⟩ ps

/-- One iteration of the token loop of `TexParser.parse`
(`parser.py` lines 420–502), one match arm per token type. -/
def step (st : TBState) (tok : TTok) : Except TErr TBState :=
  match tok with
  | .beginEnv v =>
    -- here = here.append(Environment(v)); Command.append would assert
    if isCmdD st.top.data then .error .assertionError
    else .ok (descend st (.envD v))
  | .endEnv v =>
    match walkUpToEnv st.top st.rest with
    | none => .error (.parseError "Not in an environment.")
    | some (nm, f, rest) =>
      if nm ≠ v then
        -- parser.py line 431: the ParseError message interpolates the
        -- misspelled name `tokebn`, so Python raises NameError instead
        .error .nameError
      else
        match rest with
        | [] => .error .internalError
        | p :: ps => .ok ⟨⟨p.data, p.kids ++ [closeFrame f]⟩, ps⟩
  | .cmdTok v =>
    match (if isCmdD st.top.data then ascend st else some st) with
    | none => .error .internalError
    | some st1 => .ok (descend st1 (.cmdD v))
  | .openOparam =>
    match st.top.data with
    | .cmdD _ => .ok (descend st .oparamD)
    | _ => .error (.parseError "Context required: Command")
  | .closeOparam =>
    match (if isCmdD st.top.data then ascend st else some st) with
    | none => .error .internalError
    | some st1 =>
      match st1.top.data with
      | .oparamD =>
        match ascend st1 with
        | none => .error .internalError
        | some st2 => .ok st2
      | _ => .error (.parseError "Context required: OptionalParameter")
  | .openCurly =>
    match st.top.data with
    | .cmdD _ => .ok (descend st .rparamD)
    | _ => appendLeaf st (.beginScopeN none)
  | .closeCurly =>
    match st.top.data with
    | .cmdD _ =>
      -- try: here = here.parent.walk_up_to(Command)
      -- except RootReached: pass  (the cursor stays put)
      match ascend st with
      | none => .error .internalError
      | some st1 =>
        match walkUpToCmd st1.top st1.rest with
        | some (f, rest) => .ok ⟨f, rest⟩
        | none => .ok st
    | .rparamD =>
      -- here = here.walk_up_to(Command), not guarded by try/except
      match walkUpToCmd st.top st.rest with
      | some (f, rest) => .ok ⟨f, rest⟩
      | none => .error .rootReachedErr
    | _ => appendLeaf st (.endScopeN none)
  | .lineBreakTok => appendLeaf st .lineBreakN
  | .eolsTok =>
    match (if isCmdD st.top.data then ascend st else some st) with
    | none => .error .internalError
    | some st1 => appendLeaf st1 .parBreakN
  | .commentTok => .ok st
  | .whitespaceTok =>
    match (if isCmdD st.top.data then ascend st else some st) with
    | none => .error .internalError
    | some st1 => appendLeaf st1 .whitespaceN
  | .placeholderTok s => appendLeaf st (.placeholderN s)
  | .wordTok s => appendLeaf st (.textN s)

/-- Materialize the tree at end of input: every still-open node is
already attached in the Python tree, so closing all frames reproduces
the tree hanging off `Root`. -/
def closeAll : TFrame → List TFrame → TNode
  | f, [] => closeFrame f
  | f, p :: ps => closeAll ⟨p.data, p.kids ++ [closeFrame f]⟩ ps

def initState : TBState := ⟨⟨.rootD, []⟩, []⟩

/-- The whole token loop of `TexParser.parse`: fold `step` over the
token stream from an empty `Root` and return the built tree. -/
def build (toks : List TTok) : Except TErr TNode :=
  (toks.foldlM step initState).map fun st => closeAll st.top st.rest

example : build [.openCurly, .closeCurly] =
    .ok (.rootN [.beginScopeN none, .endScopeN none]) := rfl

example : build [.beginEnv "itemize", .wordTok "x", .endEnv "enumerate"] =
    .error .nameError := rfl

example : build [.whitespaceTok, .whitespaceTok] =
    .ok (.rootN [.whitespaceN, .whitespaceN]) := rfl

/-! ## UC: `user_commands.py` over the node classes of `nodes.py` -/

/-- Node kinds of `nodes.py`: one constructor per node class, carrying
the constructor attributes of that class.  `placeholderK` keeps the raw
text `_text` together with `no`, which `Placeholder.__init__` derives as
`int(text[1:])`. -/
inductive NKind where
  | rootK
  | environmentK (nm : String)
  | commandK (nm : String)
  | oparamK
  | rparamK
  | lineBreakK
  | parBreakK
  | beginScopeK
  | endScopeK
  | whitespaceK
  | textK (s : String)
  | placeholderK (s : String) (no : Nat)
deriving DecidableEq, Repr

/-- A `nodes.py` tree node: its kind and its `_children` list. -/
inductive UNode where
  | mk (kind : NKind) (kids : List UNode)
deriving Repr

def UNode.kind : UNode → NKind
  | .mk k _ => k

def UNode.kids : UNode → List UNode
  | .mk _ ks => ks

/-- The classes that override `Node.copy` to ignore the `children`
argument (`Text.copy`, inherited by `Placeholder`). -/
def isTextLike : NKind → Bool
  | .textK _ => true
  | .placeholderK _ _ => true
  | _ => false

def isRParamK : NKind → Bool
  | .rparamK => true
  | _ => false

def isOParamK : NKind → Bool
  | .oparamK => true
  | _ => false

/-- Model of `Command.required_parameters`: the children that are
`RequiredParameter` instances, in order. -/
def requiredParameters (kids : List UNode) : List UNode :=
  kids.filter fun c => isRParamK c.kind

/-- Model of `Command.optional_parameters`. -/
def optionalParameters (kids : List UNode) : List UNode :=
  kids.filter fun c => isOParamK c.kind

/-- Python exceptions arising in `user_commands.py` / `nodes.py`:
`typeError` (e.g. `yield from None`, or calling `Node.copy` without its
required `children` argument), `attributeError` (reading an attribute a
node class does not define, e.g. `Command.name` or `BeginScope.end`),
`indexError` (`deque.popleft` on an empty deque, or an out-of-range
`parameters[...]`), `runtimeError` (a `StopIteration` escaping inside a
generator, PEP 479), `nameError` (reading the undefined `self` inside
the classmethod `Optional.from_nodes`), `userCommandParseError` with its
message, and `fuelError`, an artefact of the fuel-bounded recursion that
no run with sufficient fuel reaches. -/
inductive UErr where
  | typeError
  | attributeError
  | indexError
  | runtimeError
  | nameError
  | userCommandParseError (msg : String)
  | fuelError
deriving DecidableEq, Repr

/-- Argument descriptors: the classes `Mandetory` (sic) and `Optional`
of `user_commands.py`.  `Optional.default` is `None` or a single node
(old-style definitions store a `Text` node there). -/
inductive ArgSpec where
  | Mandetory
  | Optional (default : Option UNode)
deriving Repr

/-- A bound argument value as produced by `argument_values`:
`noneVal` is Python `None` (an `o`-optional with no default),
`singleNode` is a bare node (an `Optional` default), and `nodesIter` is
the single-use generator over a parameter's children, holding what it
has not yielded yet. -/
inductive ArgVal where
  | noneVal
  | singleNode (n : UNode)
  | nodesIter (remaining : List UNode)
deriving Repr

/-- The generator `argument_values` inside `UserCommand.call`
(`user_commands.py` lines 129–144), fully forced as by
`tuple(argument_values())`: `Mandetory` pops the required-parameter
queue (raising `IndexError` when exhausted), `Optional` pops the
optional-parameter queue if non-empty and otherwise yields its recorded
default. -/
def argument_values :
    List ArgSpec → List UNode → List UNode → Except UErr (List ArgVal)
  | [], _, _ => .ok []
  | .Mandetory :: rest, rp, op =>
    match rp with
    | [] => .error .indexError
    | r :: rp2 =>
      (argument_values rest rp2 op).map fun vs => .nodesIter r.kids :: vs
  | .Optional d :: rest, rp, op =>
    match op with
    | o :: op2 =>
      (argument_values rest rp op2).map fun vs => .nodesIter o.kids :: vs
    | [] =>
      (argument_values rest rp op).map fun vs =>
        (match d with
         | none => ArgVal.noneVal
         | some n => ArgVal.singleNode n) :: vs

/-- Model of `parameters[no - 1]` with Python indexing: `no = 0` gives index
`-1`, i.e. the last element; an index past the end is an `IndexError`
(`none`). -/
def pyIdx (no len : Nat) : Option Nat :=
  if 1 ≤ no then (if no - 1 < len then some (no - 1) else none)
  else (if 0 < len then some (len - 1) else none)

/-- One step of `Node.copy` as used in `UserCommand.call`:
`node.copy(children)` keeps the node's class and attributes and replaces
the child list, except that `Text.copy` (and `Placeholder.copy`)
ignores the argument and yields a childless fresh node. -/
def copyWith (k : NKind) (cs : List UNode) : UNode :=
  if isTextLike k then .mk k [] else .mk k cs

/-- The generator `walk` inside `UserCommand.call` (lines 154–159),
forced in depth-first order.  A `Placeholder` is replaced by
`yield from parameters[no-1]`: `None` or a bare node is not iterable
(`TypeError`); a generator yields its remaining elements and is left
exhausted — the threaded `List ArgVal` state records this.  Every other
node is rebuilt by `node.copy(walk(node._children))`.  Recursion is
bounded by fuel; `UserCommand.call` supplies enough. -/
def walkList :
    Nat → List ArgVal → List UNode → Except UErr (List ArgVal × List UNode)
  | 0, _, _ => .error .fuelError
  | _ + 1, ps, [] => .ok (ps, [])
  | fuel + 1, ps, .mk k kids :: rest =>
    match k with
    | .placeholderK _ no =>
      match pyIdx no ps.length with
      | none => .error .indexError
      | some i =>
        match ps[i]? with
        | none => .error .indexError
        | some .noneVal => .error .typeError
        | some (.singleNode _) => .error .typeError
        | some (.nodesIter l) => do
          let (ps2, out) ← walkList fuel (ps.set i (.nodesIter [])) rest
          .ok (ps2, l ++ out)
    | k =>
      if isTextLike k then do
        -- Text.copy never touches the walk(children) generator
        let (ps2, out) ← walkList fuel ps rest
        .ok (ps2, UNode.mk k [] :: out)
      else do
        let (ps1, cs) ← walkList fuel ps kids
        let (ps2, out) ← walkList fuel ps1 rest
        .ok (ps2, UNode.mk k cs :: out)

/-- The message of the arity error in `UserCommand.call`. -/
def mismatchMessage (nm : String) : String :=
  "Mismatch of arguments between definition and call of “\\" ++ nm ++ "”."

/-- Model of `UserCommand.call` (lines 121–161): split the invocation's children
into the required/optional parameter queues, bind the argument values
(converting `IndexError` into the macro-call `UserCommandParseError`
naming the macro), then substitute through the definition body.  Reading
`required_parameters` of a non-`Command` node is an `AttributeError`.
The Python `walk` recurses structurally over the finite body, so any
`fuel` larger than the number of body nodes makes the bound
inoperative. -/
def call (fuel : Nat) (argspecs : List ArgSpec) (defn : List UNode)
    (cmd : UNode) : Except UErr (List UNode) :=
  match cmd with
  | .mk (.commandK nm) kids =>
    match argument_values argspecs (requiredParameters kids)
        (optionalParameters kids) with
    | .error .indexError => .error (.userCommandParseError (mismatchMessage nm))
    | .error e => .error e
    | .ok params => (walkList fuel params defn).map Prod.snd
  | .mk _ _ => .error .attributeError

/-- Model of `Optional.from_nodes` (lines 97–113).  Every path raises in this
code base, so only the exception is returned: with no node left,
`next(nodes)` raises `StopIteration`, which PEP 479 turns into
`RuntimeError`; with a non-`BeginScope` next node, building the
`UserCommandParseError` evaluates `self.parser_location` where `self`
is undefined in the classmethod, a `NameError`; with a `BeginScope`
next node, `begin.end` / `begin.assemble()` read attributes that
`nodes.py` never defines (`assemble` does not exist, and `end` is never
set because resolution crashes before linking), an `AttributeError`. -/
def from_nodes : List UNode → UErr
  | [] => .runtimeError
  | b :: _ =>
    if b.kind = .beginScopeK then .attributeError else .nameError

/-- The letter scanner of `XParseDocumentCommand.parse_argspecs`
(lines 300–308) over the characters of one `Text` node: whitespace is
skipped, `m` yields `Mandetory`, `o` yields `Optional()`, `O` defers to
`Optional.from_nodes` on the not-yet-consumed node stream (which always
raises, see `from_nodes`), and any other character falls through the
`elif` chain with no effect. -/
def scan_letters (cs : List Char) (restNodes : List UNode) :
    Except UErr (List ArgSpec) :=
  match cs with
  | [] => .ok []
  | c :: cs2 =>
    if c = ' ' ∨ c = '\t' ∨ c = '\n' then scan_letters cs2 restNodes
    else if c = 'm' then
      (scan_letters cs2 restNodes).map (ArgSpec.Mandetory :: ·)
    else if c = 'o' then
      (scan_letters cs2 restNodes).map (ArgSpec.Optional none :: ·)
    else if c = 'O' then .error (from_nodes restNodes)
    else scan_letters cs2 restNodes

/-- Model of `XParseDocumentCommand.parse_argspecs` (lines 295–308): iterate the
children of the argspec parameter; `Text` nodes (including the subclass
`Placeholder`) have their text scanned letter by letter, every other
node is passed over without effect. -/
def parse_argspecs : List UNode → Except UErr (List ArgSpec)
  | [] => .ok []
  | .mk (.textK s) _ :: rest => do
    let a ← scan_letters s.toList rest
    let b ← parse_argspecs rest
    .ok (a ++ b)
  | .mk (.placeholderK s _) _ :: rest => do
    let a ← scan_letters s.toList rest
    let b ← parse_argspecs rest
    .ok (a ++ b)
  | _ :: rest => parse_argspecs rest

example : parse_argspecs [.mk (.textK "m o") []] =
    .ok [.Mandetory, .Optional none] := rfl

example : parse_argspecs [.mk (.textK "xm") []] = .ok [.Mandetory] := rfl

/-- A macro definition as the resolution engine consumes it: an
argument-descriptor list and a body.  This is also the shape of the
entries of the externally supplied `extra_user_commands` mapping. -/
structure UCmd where
  argspecs : List ArgSpec
  defn : List UNode

/-- Model of `find_user_commands` (`user_commands.py` lines 27–42): walk the
tree, descending only into non-`Command` children.  For every `Command`
child the membership test `child.name in {...}` reads the attribute
`name`, which the `Command` class of `nodes.py` does not define (it
stores the name in `command`), so any `Command` anywhere in a
non-`Command` position raises `AttributeError` — in particular the
constructors `OldStyleNewCommand`/`XParseDocumentCommand` behind that
test are unreachable and the scan can only succeed with an empty
result.  Recursion is fuel-bounded; any fuel above the tree depth is
enough. -/
def find_user_commands : Nat → List UNode → Except UErr (List (String × UCmd))
  | 0, _ => .error .fuelError
  | _ + 1, [] => .ok []
  | fuel + 1, c :: rest =>
    match c with
    | .mk (.commandK _) _ => .error .attributeError
    | .mk _ kids => do
      let a ← find_user_commands fuel kids
      let b ← find_user_commands fuel rest
      .ok (a ++ b)

/-- The generator `newchildren` inside `resolve_user_commands.process`
(lines 54–81), forced child by child, together with `process` itself
(line 83, `node.copy(newchildren(node.children))`).  For a `Command`
child the test `child.name in {...}` raises `AttributeError` (see
`find_user_commands`), so the macro branches never run; for a
`BeginScope`/`EndScope` child the call `child.copy()` omits the
required `children` parameter of `Node.copy`, a `TypeError` — the
scope-relinking statements behind it are unreachable; every other
child is processed recursively.  A `Text`/`Placeholder` node's copy
ignores (and never forces) the `newchildren` generator.  The
name→definition mapping `ucs` is carried as in the source although the
dead macro branch is the only consumer. -/
def processList (ucs : List (String × UCmd)) :
    Nat → List UNode → Except UErr (List UNode)
  | 0, _ => .error .fuelError
  | _ + 1, [] => .ok []
  | fuel + 1, c :: rest =>
    match c.kind with
    | .commandK _ => .error .attributeError
    | .beginScopeK => .error .typeError
    | .endScopeK => .error .typeError
    | _ => do
      let c2 ←
        (if isTextLike c.kind then .ok (UNode.mk c.kind [])
         else (processList ucs fuel c.kids).map (UNode.mk c.kind))
      let r ← processList ucs fuel rest
      .ok (c2 :: r)

/-- Model of `resolve_user_commands(root, extra_user_commands)` (lines 44–85):
collect the macro definitions (forced first, by `dict(...)`), overlay
the externally supplied mapping, then return `process(root)` — a
recursive copy with macro calls expanded. -/
def resolve_user_commands (fuel : Nat) (root : UNode)
    (extra : List (String × UCmd)) : Except UErr UNode :=
  match find_user_commands fuel root.kids with
  | .error e => .error e
  | .ok found =>
    let ucs := found ++ extra
    if isTextLike root.kind then .ok (UNode.mk root.kind [])
    else (processList ucs fuel root.kids).map (UNode.mk root.kind)

/-- Model of `Node.text` (`nodes.py` lines 79–85) of a sequence of sibling
nodes: concatenate `str(...)` over all `FlatNode` descendants in
document order.  `Whitespace` renders as a single space, `Text` and
`Placeholder` as their stored text; `BeginScope`/`EndScope` inherit
`FlatNode.__str__`, which raises. -/
def text_of : Nat → List UNode → Except UErr String
  | 0, _ => .error .fuelError
  | _ + 1, [] => .ok ""
  | fuel + 1, .mk k kids :: rest => do
    let s1 ←
      (match k with
       | .whitespaceK => Except.ok " "
       | .textK s => Except.ok s
       | .placeholderK s _ => Except.ok s
       | .beginScopeK => Except.error UErr.typeError
       | .endScopeK => Except.error UErr.typeError
       | _ => Except.ok "")
    let s2 ← text_of fuel kids
    let s3 ← text_of fuel rest
    .ok (s1 ++ s2 ++ s3)

/-- Shorthand for a childless `Text` node. -/
def txt (s : String) : UNode := .mk (.textK s) []

/-- Shorthand for a `Placeholder` node (`no = int(text[1:])`). -/
def ph (n : Nat) : UNode := .mk (.placeholderK ("#" ++ toString n) n) []

/-- The body of `\NewDocumentCommand{\box}{m o}{[#1|#2]}` as a node
sequence. -/
def boxBody : List UNode := [txt "[", ph 1, txt "|", ph 2, txt "]"]

/-- The invocation `\box{x}`. -/
def boxCallX : UNode := .mk (.commandK "box") [.mk .rparamK [txt "x"]]

/-- The invocation `\box{x}[y]`. -/
def boxCallXY : UNode :=
  .mk (.commandK "box") [.mk .rparamK [txt "x"], .mk .oparamK [txt "y"]]

/-- The body of a definition that uses its one argument twice:
`{#1,#1}`. -/
def twiceBody : List UNode := [ph 1, txt ",", ph 1]

/-- The invocation `\twice{x}`. -/
def twiceCallX : UNode := .mk (.commandK "twice") [.mk .rparamK [txt "x"]]

/-! ## HP: the object store of `nodes.py` (`Node.copy` / `Node.append`) -/

/-- An object of the node store: its kind (class plus constructor
attributes), its `_children` (as store indices) and its `parent`
attribute (`none` = attribute absent, as on a freshly constructed
node). -/
structure HObj where
  kind : NKind
  childIds : List Nat
  parentId : Option Nat
deriving DecidableEq, Repr

def isCommandK : NKind → Bool
  | .commandK _ => true
  | _ => false

def isParamK : NKind → Bool
  | .oparamK => true
  | .rparamK => true
  | _ => false

/-- Model of `Node.copy(children)` (`nodes.py` lines 90–93) on object `src` of
the store: allocate a fresh object of the same class and attributes
whose `_children` is the given list — assigned directly, with no
`append` and hence no parent updates anywhere.  The overrides
(`Environment.copy`, `Command.copy`) do the same; `Text.copy` (and
`Placeholder.copy`) ignores the argument and produces a childless
node.  `none` models the `AttributeError`/`IndexError` of a dangling
source id. -/
def copyNode (h : List HObj) (src : Nat) (cs : List Nat) :
    Option (List HObj × Nat) :=
  match h[src]? with
  | none => none
  | some o =>
    some (h ++ [⟨o.kind, if isTextLike o.kind then [] else cs, none⟩],
      h.length)

/-- Model of `Node.append(child)` (`nodes.py` lines 24–27) in the store:
`self._children.append(child)` then `child.parent = self`, two
sequential attribute writes.  `Command.append` first asserts that the
child is a parameter node. -/
def appendChild (h : List HObj) (p c : Nat) : Option (List HObj) :=
  match h[p]?, h[c]? with
  | some po, some co =>
    if isCommandK po.kind && !isParamK co.kind then none
    else
      let h1 := h.set p ⟨po.kind, po.childIds ++ [c], po.parentId⟩
      match h1[c]? with
      | none => none
      | some co1 => some (h1.set c ⟨co1.kind, co1.childIds, some p⟩)
  | _, _ => none

/-! ## Remaining definitions used by the theorems -/

/-- The number of `Mandetory` descriptors of an argument
specification, i.e. how many entries `argument_values` pops from the
required-parameter queue. -/
def countMandetory : List ArgSpec → Nat
  | [] => 0
  | .Mandetory :: rest => countMandetory rest + 1
  | .Optional _ :: rest => countMandetory rest

/-- A builder tree all of whose `BeginScope`/`EndScope` nodes carry no
partner reference (the `end`/`begin` attributes are absent). -/
inductive Linkfree : TNode → Prop where
  | environment (nm : String) (ks : List TNode) :
      (∀ c ∈ ks, Linkfree c) → Linkfree (.environment nm ks)
  | commandN (nm : String) (ks : List TNode) :
      (∀ c ∈ ks, Linkfree c) → Linkfree (.commandN nm ks)
  | oparamN (ks : List TNode) :
      (∀ c ∈ ks, Linkfree c) → Linkfree (.oparamN ks)
  | rparamN (ks : List TNode) :
      (∀ c ∈ ks, Linkfree c) → Linkfree (.rparamN ks)
  | rootN (ks : List TNode) :
      (∀ c ∈ ks, Linkfree c) → Linkfree (.rootN ks)
  | lineBreakN : Linkfree .lineBreakN
  | parBreakN : Linkfree .parBreakN
  | whitespaceN : Linkfree .whitespaceN
  | beginScopeN : Linkfree (.beginScopeN none)
  | endScopeN : Linkfree (.endScopeN none)
  | textN (s : String) : Linkfree (.textN s)
  | placeholderN (s : String) : Linkfree (.placeholderN s)

/-- All children appended to an open frame so far are link-free. -/
def FrameLF (f : TFrame) : Prop := ∀ c ∈ f.kids, Linkfree c

/-- The builder-state invariant behind claim C5. -/
def StateLF (st : TBState) : Prop :=
  FrameLF st.top ∧ ∀ f ∈ st.rest, FrameLF f

/-- A cursor sitting on a bare `\foo` whose only ancestor is the root:
the state reached after consuming `\foo` from scratch. -/
def cmdAtRootState : TBState := ⟨⟨.cmdD "foo", []⟩, [⟨.rootD, []⟩]⟩

/-- The initial state, used as a state whose cursor is neither a
`Command` nor a `RequiredParameter`. -/
def rootOnlyState : TBState := ⟨⟨.rootD, []⟩, []⟩

/-- A two-object store: a `Root` and a `Text` node, both parentless. -/
def twoObjHeap : List HObj := [⟨.rootK, [], none⟩, ⟨.textK "a", [], none⟩]

/-! ## Theorems -/

/-- Claim C1: for a definition built from argspec `m o` with body
`[#1|#2]`, the spec expects `\box{x}` to resolve with the optional slot
empty (flattening to `[x|]`) and `\box{x}[y]` to flatten to `[x|y]`.
The code binds the unset optional to `None` and substitution does
`yield from None`, so the first call raises `TypeError` instead of
resolving; the second call behaves as claimed. -/
theorem c1_unset_optional_crashes_substitution :
    parse_argspecs [.mk (.textK "m o") []] = .ok [.Mandetory, .Optional none] ∧
    call 99 [.Mandetory, .Optional none] boxBody boxCallX = .error .typeError ∧
    call 99 [.Mandetory, .Optional none] boxBody boxCallXY =
      .ok [txt "[", txt "x", txt "|", txt "y", txt "]"] ∧
    text_of 99 [txt "[", txt "x", txt "|", txt "y", txt "]"] = .ok "[x|y]" :=
  ⟨rfl, rfl, rfl, rfl⟩

theorem argument_values_overflow (specs : List ArgSpec) :
    ∀ rp op : List UNode, rp.length < countMandetory specs →
      argument_values specs rp op = .error .indexError := by
  induction specs with
  | nil => intro rp op h; simp [countMandetory] at h
  | cons s rest ih =>
    intro rp op h
    cases s with
    | Mandetory =>
      cases rp with
      | nil => rfl
      | cons r rp2 =>
        have h2 : rp2.length < countMandetory rest := by
          simp only [countMandetory, List.length_cons] at h ⊢; omega
        simp [argument_values, ih rp2 op h2, Except.map]
    | Optional d =>
      have h2 : rp.length < countMandetory rest := by
        simpa [countMandetory] using h
      cases op with
      | nil => simp [argument_values, ih rp [] h2, Except.map]
      | cons o op2 => simp [argument_values, ih rp op2 h2, Except.map]

/-- Claim C2: a macro invocation whose required-parameter queue is
exhausted before all `Mandetory` descriptors are bound makes `call`
raise a `UserCommandParseError` whose message names the macro. -/
theorem c2_missing_required_raises (fuel : Nat) (argspecs : List ArgSpec)
    (defn : List UNode) (nm : String) (kids : List UNode)
    (h : (requiredParameters kids).length < countMandetory argspecs) :
    call fuel argspecs defn (.mk (.commandK nm) kids) =
      .error (.userCommandParseError (mismatchMessage nm)) ∧
    ∃ pre post, mismatchMessage nm = pre ++ nm ++ post := by
  refine ⟨?_, ⟨"Mismatch of arguments between definition and call of “\\",
    "”.", rfl⟩⟩
  simp [call, argument_values_overflow argspecs _ _ h]

theorem c2_missing_required_raises_witness :
    (requiredParameters ([] : List UNode)).length < countMandetory [.Mandetory] ∧
    (call 9 [.Mandetory] [] (.mk (.commandK "foo") []) =
       .error (.userCommandParseError (mismatchMessage "foo")) ∧
     ∃ pre post, mismatchMessage "foo" = pre ++ "foo" ++ post) :=
  ⟨by decide, c2_missing_required_raises 9 [.Mandetory] [] "foo" [] (by decide)⟩

/-- Claim C3: an `\end{...}` token walks up to the nearest enclosing
`Environment` and should be a structural parse error when none exists
or when the names differ.  The no-environment branch and the matching
branch behave as claimed, but in the name-mismatch branch the
`ParseError` message interpolates the misspelled variable `tokebn`
(`parser.py` line 431), so Python raises `NameError` instead of the
parse error. -/
theorem c3_end_environment_mismatch_is_name_error :
    build [.beginEnv "itemize", .wordTok "x", .endEnv "enumerate"] =
      .error .nameError ∧
    build [.endEnv "itemize"] =
      .error (.parseError "Not in an environment.") ∧
    build [.beginEnv "itemize", .endEnv "itemize"] =
      .ok (.rootN [.environment "itemize" []]) :=
  ⟨rfl, rfl, rfl⟩

/-- Claim C4, counterexample: the claim says a close-curly token with
the cursor neither a `Command` nor a `RequiredParameter` fails, and a
close-curly on a bare `Command` with no enclosing `Command` fails.  In
both situations the builder succeeds: a stray `}` at top level appends
an `EndScope`, and `\foo}` is consumed silently. -/
theorem c4_close_curly_counterexample :
    build [.closeCurly] = .ok (.rootN [.endScopeN none]) ∧
    build [.cmdTok "foo", .closeCurly] = .ok (.rootN [.commandN "foo" []]) :=
  ⟨rfl, rfl⟩

theorem walkUpToCmd_eq_none (rest : List TFrame) :
    ∀ f : TFrame, isCmdD f.data = false →
      (∀ g ∈ rest, isCmdD g.data = false) → walkUpToCmd f rest = none := by
  induction rest with
  | nil =>
    intro f hf _
    rw [walkUpToCmd]
    cases hd : f.data <;> simp_all [isCmdD]
  | cons p ps ih =>
    intro f hf hall
    rw [walkUpToCmd]
    cases hd : f.data <;> simp_all [isCmdD]

/-- Claim C4, amended: on a close-curly token, when the cursor is a
bare `Command` with no enclosing `Command` frame the token is consumed
silently and the cursor stays put (`except RootReached: pass`); when
the cursor is neither a `Command` nor a `RequiredParameter`, an
unlinked `EndScope` is appended.  No error is raised in either case. -/
theorem c4_close_curly_silent (st : TBState) :
    (∀ nm, st.top.data = .cmdD nm → st.rest ≠ [] →
      (∀ f ∈ st.rest, isCmdD f.data = false) →
      step st .closeCurly = .ok st) ∧
    (isCmdD st.top.data = false → st.top.data ≠ .rparamD →
      step st .closeCurly = .ok (pushKid st (.endScopeN none))) := by
  constructor
  · intro nm htop hne hrest
    obtain ⟨⟨d, ks⟩, rest⟩ := st
    simp only at htop
    subst htop
    cases rest with
    | nil => exact absurd rfl hne
    | cons p ps =>
      show (match walkUpToCmd ⟨p.data, p.kids ++ [closeFrame ⟨.cmdD nm, ks⟩]⟩
          ps with
        | some (f, rest) => Except.ok (⟨f, rest⟩ : TBState)
        | none => Except.ok ⟨⟨.cmdD nm, ks⟩, p :: ps⟩) =
        Except.ok ⟨⟨.cmdD nm, ks⟩, p :: ps⟩
      rw [walkUpToCmd_eq_none ps _ (by simpa using (hrest p (by simp)))
        (fun g hg => hrest g (by simp [hg]))]
  · intro h1 h2
    obtain ⟨⟨d, ks⟩, rest⟩ := st
    cases d <;> simp_all [step, isCmdD, appendLeaf, pushKid]

theorem c4_close_curly_silent_witness :
    step cmdAtRootState .closeCurly = .ok cmdAtRootState ∧
    step rootOnlyState .closeCurly =
      .ok (pushKid rootOnlyState (.endScopeN none)) :=
  ⟨(c4_close_curly_silent cmdAtRootState).1 "foo" rfl (by simp [cmdAtRootState])
      (by
        intro f hf
        simp only [cmdAtRootState, List.mem_singleton] at hf
        subst hf
        rfl),
   (c4_close_curly_silent rootOnlyState).2 rfl (by simp [rootOnlyState])⟩

/-- Claim C5, counterexample: the tree the builder returns for `{}`
carries `BeginScope` and `EndScope` nodes with no partner reference at
all — no mutual link is established when the closing brace is
consumed. -/
theorem c5_scope_pair_unlinked :
    build [.openCurly, .closeCurly] =
      .ok (.rootN [.beginScopeN none, .endScopeN none]) := rfl

/-- Claim C6, counterexample: two adjacent whitespace tokens produce
two adjacent `Whitespace` nodes — the builder does not coalesce
(`parser.py` lines 492–496 append unconditionally). -/
theorem c6_whitespace_not_coalesced :
    build [.whitespaceTok, .whitespaceTok] =
      .ok (.rootN [.whitespaceN, .whitespaceN]) := rfl

theorem foldlM_step_leafTok (tk : TTok) (nd : TNode)
    (hstep : ∀ ks : List TNode,
      step ⟨⟨.rootD, ks⟩, []⟩ tk = .ok ⟨⟨.rootD, ks ++ [nd]⟩, []⟩)
    (n : Nat) :
    ∀ ks : List TNode,
      List.foldlM step (⟨⟨.rootD, ks⟩, []⟩ : TBState) (List.replicate n tk) =
        .ok ⟨⟨.rootD, ks ++ List.replicate n nd⟩, []⟩ := by
  induction n with
  | zero =>
    intro ks
    simp only [List.replicate_zero, List.foldlM_nil, List.append_nil]
    rfl
  | succ n ih =>
    intro ks
    rw [List.replicate_succ, List.foldlM_cons, hstep ks]
    show List.foldlM step (⟨⟨.rootD, ks ++ [nd]⟩, []⟩ : TBState)
        (List.replicate n tk) = _
    rw [ih (ks ++ [nd])]
    simp [List.append_assoc, List.replicate_succ]

/-- Claim C6, amended: every blank-line token appends a
`ParagraphBreak` node and every whitespace token appends a `Whitespace`
node unconditionally — a run of `n` such tokens yields `n` adjacent
nodes of that kind, with no coalescing even when the previous child
already is one. -/
theorem c6_breaks_appended_unconditionally (n : Nat) :
    build (List.replicate n .whitespaceTok) =
      .ok (.rootN (List.replicate n .whitespaceN)) ∧
    build (List.replicate n .eolsTok) =
      .ok (.rootN (List.replicate n .parBreakN)) := by
  refine ⟨?_, ?_⟩
  · unfold build initState
    rw [foldlM_step_leafTok .whitespaceTok .whitespaceN (fun ks => rfl) n []]
    simp [closeAll, closeFrame, Except.map]
  · unfold build initState
    rw [foldlM_step_leafTok .eolsTok .parBreakN (fun ks => rfl) n []]
    simp [closeAll, closeFrame, Except.map]

theorem c6_breaks_appended_unconditionally_witness :
    build (List.replicate 2 .whitespaceTok) =
      .ok (.rootN (List.replicate 2 .whitespaceN)) ∧
    build (List.replicate 2 .eolsTok) =
      .ok (.rootN (List.replicate 2 .parBreakN)) :=
  c6_breaks_appended_unconditionally 2

theorem linkfree_closeFrame {f : TFrame} (h : FrameLF f) :
    Linkfree (closeFrame f) := by
  obtain ⟨d, ks⟩ := f
  cases d
  · exact .rootN ks h
  · exact .environment _ ks h
  · exact .commandN _ ks h
  · exact .oparamN ks h
  · exact .rparamN ks h

theorem stateLF_pushKid {st : TBState} {n : TNode} (h : StateLF st)
    (hn : Linkfree n) : StateLF (pushKid st n) := by
  obtain ⟨h1, h2⟩ := h
  refine ⟨?_, h2⟩
  intro c hc
  simp only [pushKid, List.mem_append, List.mem_singleton] at hc
  rcases hc with hc | rfl
  · exact h1 c hc
  · exact hn

theorem stateLF_appendLeaf {st st' : TBState} {n : TNode} (h : StateLF st)
    (hn : Linkfree n) (he : appendLeaf st n = .ok st') : StateLF st' := by
  unfold appendLeaf at he
  split at he
  · cases he
  · injection he with he1
    subst he1
    exact stateLF_pushKid h hn

theorem stateLF_descend {st : TBState} {d : TData} (h : StateLF st) :
    StateLF (descend st d) := by
  obtain ⟨h1, h2⟩ := h
  refine ⟨?_, ?_⟩
  · intro c hc
    simp [descend] at hc
  · intro f hf
    simp only [descend, List.mem_cons] at hf
    rcases hf with rfl | hf
    · exact h1
    · exact h2 f hf

theorem stateLF_ascend {st st' : TBState} (h : StateLF st)
    (he : ascend st = some st') : StateLF st' := by
  obtain ⟨top, rest⟩ := st
  obtain ⟨h1, h2⟩ := h
  cases rest with
  | nil => cases he
  | cons p ps =>
    injection he with he1
    subst he1
    constructor
    · intro c hc
      simp only [List.mem_append, List.mem_singleton] at hc
      rcases hc with hc | rfl
      · exact h2 p (by simp) c hc
      · exact linkfree_closeFrame h1
    · exact fun f hf => h2 f (by simp [hf])

theorem stateLF_maybeAscend {st st1 : TBState} (h : StateLF st)
    (he : (if isCmdD st.top.data then ascend st else some st) = some st1) :
    StateLF st1 := by
  split at he
  · exact stateLF_ascend h he
  · injection he with he1
    subst he1
    exact h

theorem walkUpToEnv_LF (rest : List TFrame) :
    ∀ (f : TFrame) (nm : String) (f' : TFrame) (rest' : List TFrame),
      FrameLF f → (∀ g ∈ rest, FrameLF g) →
      walkUpToEnv f rest = some (nm, f', rest') →
      FrameLF f' ∧ ∀ g ∈ rest', FrameLF g := by
  induction rest with
  | nil =>
    intro f nm f' rest' hf hrest he
    rw [walkUpToEnv] at he
    split at he
    · cases he
      exact ⟨hf, hrest⟩
    · cases he
    · cases he
  | cons p ps ih =>
    intro f nm f' rest' hf hrest he
    rw [walkUpToEnv] at he
    split at he
    · cases he
      exact ⟨hf, hrest⟩
    · cases he
    · refine ih _ _ _ _ ?_ (fun g hg => hrest g (by simp [hg])) he
      intro c hc
      simp only [List.mem_append, List.mem_singleton] at hc
      rcases hc with hc | rfl
      · exact hrest p (by simp) c hc
      · exact linkfree_closeFrame hf

theorem walkUpToCmd_LF (rest : List TFrame) :
    ∀ (f : TFrame) (f' : TFrame) (rest' : List TFrame),
      FrameLF f → (∀ g ∈ rest, FrameLF g) →
      walkUpToCmd f rest = some (f', rest') →
      FrameLF f' ∧ ∀ g ∈ rest', FrameLF g := by
  induction rest with
  | nil =>
    intro f f' rest' hf hrest he
    rw [walkUpToCmd] at he
    split at he
    · cases he
      exact ⟨hf, hrest⟩
    · cases he
    · cases he
  | cons p ps ih =>
    intro f f' rest' hf hrest he
    rw [walkUpToCmd] at he
    split at he
    · cases he
      exact ⟨hf, hrest⟩
    · cases he
    · refine ih _ _ _ ?_ (fun g hg => hrest g (by simp [hg])) he
      intro c hc
      simp only [List.mem_append, List.mem_singleton] at hc
      rcases hc with hc | rfl
      · exact hrest p (by simp) c hc
      · exact linkfree_closeFrame hf

theorem stateLF_step {st st' : TBState} {tok : TTok} (h : StateLF st)
    (he : step st tok = .ok st') : StateLF st' := by
  cases tok with
  | beginEnv v =>
    simp only [step] at he
    split at he
    · cases he
    · injection he with he1
      subst he1
      exact stateLF_descend h
  | endEnv v =>
    simp only [step] at he
    split at he
    · cases he
    · next nm f rest hw =>
      obtain ⟨hf, hrest⟩ := walkUpToEnv_LF _ _ _ _ _ h.1 h.2 hw
      split at he
      · cases he
      · split at he
        · cases he
        · next p ps =>
          injection he with he1
          subst he1
          constructor
          · intro c hc
            simp only [List.mem_append, List.mem_singleton] at hc
            rcases hc with hc | rfl
            · exact hrest p (by simp) c hc
            · exact linkfree_closeFrame hf
          · exact fun g hg => hrest g (by simp [hg])
  | cmdTok v =>
    simp only [step] at he
    split at he
    · cases he
    · next st1 hst1 =>
      injection he with he1
      subst he1
      exact stateLF_descend (stateLF_maybeAscend h hst1)
  | openOparam =>
    simp only [step] at he
    split at he
    · injection he with he1
      subst he1
      exact stateLF_descend h
    · cases he
  | closeOparam =>
    simp only [step] at he
    split at he
    · cases he
    · next st1 hst1 =>
      have h1 := stateLF_maybeAscend h hst1
      split at he
      · split at he
        · cases he
        · injection he with he1
          subst he1
          exact stateLF_ascend h1 (by assumption)
      · cases he
  | openCurly =>
    simp only [step] at he
    split at he
    · injection he with he1
      subst he1
      exact stateLF_descend h
    · exact stateLF_appendLeaf h .beginScopeN he
  | closeCurly =>
    simp only [step] at he
    split at he
    · split at he
      · cases he
      · next st1 hst1 =>
        split at he
        · next f rest hw =>
          injection he with he1
          subst he1
          have h1 := stateLF_ascend h hst1
          exact walkUpToCmd_LF _ _ _ _ h1.1 h1.2 hw
        · injection he with he1
          subst he1
          exact h
    · split at he
      · next f rest hw =>
        injection he with he1
        subst he1
        exact walkUpToCmd_LF _ _ _ _ h.1 h.2 hw
      · cases he
    · exact stateLF_appendLeaf h .endScopeN he
  | lineBreakTok => exact stateLF_appendLeaf h .lineBreakN he
  | eolsTok =>
    simp only [step] at he
    split at he
    · cases he
    · next st1 hst1 =>
      exact stateLF_appendLeaf (stateLF_maybeAscend h hst1) .parBreakN he
  | commentTok =>
    injection he with he1
    subst he1
    exact h
  | whitespaceTok =>
    simp only [step] at he
    split at he
    · cases he
    · next st1 hst1 =>
      exact stateLF_appendLeaf (stateLF_maybeAscend h hst1) .whitespaceN he
  | placeholderTok s => exact stateLF_appendLeaf h (.placeholderN s) he
  | wordTok s => exact stateLF_appendLeaf h (.textN s) he

theorem stateLF_foldlM (toks : List TTok) :
    ∀ {st st' : TBState}, StateLF st →
      List.foldlM step st toks = .ok st' → StateLF st' := by
  induction toks with
  | nil =>
    intro st st' h he
    rw [List.foldlM_nil] at he
    injection he with he1
    subst he1
    exact h
  | cons t ts ih =>
    intro st st' h he
    rw [List.foldlM_cons] at he
    cases hs : step st t with
    | error e =>
      rw [hs] at he
      cases he
    | ok st1 =>
      rw [hs] at he
      exact ih (stateLF_step h hs) he

theorem linkfree_closeAll (rest : List TFrame) :
    ∀ f : TFrame, FrameLF f → (∀ g ∈ rest, FrameLF g) →
      Linkfree (closeAll f rest) := by
  induction rest with
  | nil => exact fun f hf _ => linkfree_closeFrame hf
  | cons p ps ih =>
    intro f hf hall
    show Linkfree (closeAll ⟨p.data, p.kids ++ [closeFrame f]⟩ ps)
    refine ih _ ?_ (fun g hg => hall g (by simp [hg]))
    intro c hc
    simp only [List.mem_append, List.mem_singleton] at hc
    rcases hc with hc | rfl
    · exact hall p (by simp) c hc
    · exact linkfree_closeFrame hf

/-- Claim C5, amended: in every tree the Tree Builder returns, the
`BeginScope` and `EndScope` nodes carry no partner reference at all —
the mutual link is not established when the closing brace token is
consumed (nor anywhere else in the builder). -/
theorem c5_builder_trees_linkfree (toks : List TTok) (t : TNode)
    (he : build toks = .ok t) : Linkfree t := by
  unfold build at he
  cases hf : List.foldlM step initState toks with
  | error e =>
    rw [hf] at he
    cases he
  | ok st =>
    rw [hf] at he
    injection he with he1
    subst he1
    have hlf : StateLF st :=
      stateLF_foldlM toks
        ⟨fun c hc => by simp [initState] at hc,
         fun f hf => by simp [initState] at hf⟩ hf
    exact linkfree_closeAll st.rest st.top hlf.1 hlf.2

theorem c5_builder_trees_linkfree_witness :
    Linkfree (.rootN [.beginScopeN none, .endScopeN none]) :=
  c5_builder_trees_linkfree [.openCurly, .closeCurly] _ rfl

/-- Claim C7, counterexample: an unsupported argspec letter (`x`) is
not a definition error; the descriptor list of the remaining letters is
produced as if the letter were not there. -/
theorem c7_unsupported_letter_not_an_error :
    parse_argspecs [.mk (.textK "xm") []] = .ok [.Mandetory] := rfl

/-- Claim C7, amended: an argspec character that is not whitespace and
not one of `m`, `o`, `O` is silently skipped by the letter scanner of
`parse_argspecs` — it contributes no descriptor and raises no error. -/
theorem c7_unsupported_letter_skipped (c : Char)
    (h : c ∉ ([' ', '\t', '\n', 'm', 'o', 'O'] : List Char)) :
    (∀ cs rest, scan_letters (c :: cs) rest = scan_letters cs rest) ∧
    parse_argspecs [.mk (.textK (String.mk [c])) []] = .ok [] := by
  simp only [List.mem_cons, List.not_mem_nil, or_false, not_or] at h
  obtain ⟨h1, h2, h3, h4, h5, h6⟩ := h
  have hscan : ∀ cs rest, scan_letters (c :: cs) rest = scan_letters cs rest := by
    intro cs rest
    simp [scan_letters, h1, h2, h3, h4, h5, h6]
  refine ⟨hscan, ?_⟩
  show (do
    let a ← scan_letters (String.mk [c]).toList []
    let b ← parse_argspecs []
    pure (a ++ b) : Except UErr (List ArgSpec)) = .ok []
  rw [show (String.mk [c]).toList = [c] from rfl, hscan [] []]
  rfl

theorem c7_unsupported_letter_skipped_witness :
    ('x' ∉ ([' ', '\t', '\n', 'm', 'o', 'O'] : List Char)) ∧
    ((∀ cs rest, scan_letters ('x' :: cs) rest = scan_letters cs rest) ∧
     parse_argspecs [.mk (.textK (String.mk ['x'])) []] = .ok []) :=
  ⟨by decide, c7_unsupported_letter_skipped 'x' (by decide)⟩

/-- Claim C8: the spec says every `Placeholder(N)` is replaced by the
full child sequence of the Nth bound argument.  The bound values are
single-use generators, so the second occurrence of `#1` in the body
`#1,#1` called with `{x}` expands to nothing: the result is `x,`, not
`x,x`. -/
theorem c8_repeated_placeholder_empty :
    call 99 [.Mandetory] twiceBody twiceCallX = .ok [txt "x", txt ","] ∧
    text_of 99 [txt "x", txt ","] = .ok "x," :=
  ⟨rfl, rfl⟩

/-- Claim C9: resolution is supposed to return a newly constructed
tree for any parsed tree.  It cannot: on any tree containing a plain
brace scope, `resolve_user_commands` calls `child.copy()` without the
required `children` argument of `Node.copy` (`TypeError`), and on any
tree containing a `Command`, `find_user_commands` reads `child.name`,
which the `Command` class of `nodes.py` does not define
(`AttributeError`). -/
theorem c9_resolve_crashes :
    resolve_user_commands 99
        (.mk .rootK [.mk .beginScopeK [], .mk .endScopeK []]) [] =
      .error .typeError ∧
    resolve_user_commands 99 (.mk .rootK [.mk (.commandK "foo") []]) [] =
      .error .attributeError :=
  ⟨rfl, rfl⟩

/-- Claim C10: `Node.copy` hands the new node its children by direct
assignment: the store is extended by one fresh, parentless object and
no existing object — in particular no child's `parent` attribute — is
touched; only `Node.append` establishes a parent reference. -/
theorem c10_copy_never_attaches :
    (∀ (h : List HObj) (src : Nat) (cs : List Nat) (h2 : List HObj)
        (nid : Nat), copyNode h src cs = some (h2, nid) →
      nid = h.length ∧ (∀ i, i < h.length → h2[i]? = h[i]?) ∧
      ∃ o, h[src]? = some o ∧
        h2[nid]? = some ⟨o.kind, if isTextLike o.kind then [] else cs, none⟩) ∧
    (∀ (h : List HObj) (p c : Nat) (h2 : List HObj),
      appendChild h p c = some h2 →
      ∃ o, h2[c]? = some o ∧ o.parentId = some p) := by
  constructor
  · intro h src cs h2 nid he
    unfold copyNode at he
    split at he
    · cases he
    · next o hsrc =>
      injection he with he1
      injection he1 with hh hn
      subst hh hn
      refine ⟨rfl, ?_, o, hsrc, ?_⟩
      · intro i hi
        rw [List.getElem?_append, if_pos hi]
      · exact List.getElem?_concat_length _ _
  · intro h p c h2 he
    unfold appendChild at he
    split at he
    · next po co hp hc =>
      split at he
      · cases he
      · simp only at he
        split at he
        · cases he
        · next co1 hc1 =>
          injection he with he1
          subst he1
          have hclen : c < h.length := by
            by_contra hcon
            rw [List.getElem?_eq_none (by omega)] at hc
            cases hc
          have hlen : c < (h.set p
              ⟨po.kind, po.childIds ++ [c], po.parentId⟩).length := by
            simpa using hclen
          exact ⟨_, List.getElem?_set_self hlen, rfl⟩
    · cases he

theorem c10_copy_never_attaches_witness :
    (2 = twoObjHeap.length ∧
     (∀ i, i < twoObjHeap.length →
        (twoObjHeap ++ [⟨.rootK, [1], none⟩])[i]? = twoObjHeap[i]?) ∧
     ∃ o, twoObjHeap[0]? = some o ∧
       (twoObjHeap ++ [⟨.rootK, [1], none⟩])[2]? =
         some ⟨o.kind, if isTextLike o.kind then [] else [1], none⟩) ∧
    (∃ o, ([⟨.rootK, [1], none⟩, ⟨.textK "a", [], some 0⟩] :
        List HObj)[1]? = some o ∧ o.parentId = some 0) :=
  ⟨c10_copy_never_attaches.1 twoObjHeap 0 [1] _ 2 rfl,
   c10_copy_never_attaches.2 twoObjHeap 0 1 _ rfl⟩

end TinyTeX
